import Mathlib

/-!
Shallow embedding of the rag-second-brain repository (Python) in Lean 4,
used to settle the frozen claims C1..C10 about its specification.

Conventions of the embedding:
* Python `str` is modelled as `List Char` (a sequence of code points);
  `str.lower()` is modelled by the ASCII case mapping `Char.toLower`
  (all inputs appearing in the claims are ASCII or CJK, where the two agree).
* Python `float` scores are modelled as exact rationals `ℚ`.
* Python dicts that the code iterates over are modelled as association
  lists in insertion order.
* Third-party boundaries (the ChromaDB client/collection and the
  sentence-transformers model) are modelled as explicit oracle parameters;
  everything implemented in the repository itself is translated from the
  source.
* Functions that can raise return `Except`; a raised exception is `.error`.
* Recursive helpers that consume a string by a non-structural amount use a
  `Nat` fuel initialised to the string length (always sufficient, see the
  accompanying lemmas/branches), so that every definition reduces in the
  kernel.
-/

namespace Rag

/-- Python strings as lists of code points. -/
abbrev Str := List Char

/-- Metadata dictionaries: string-keyed, string-valued association lists. -/
abbrev Metadata := List (Str × Str)

/-- Python `str.isspace` / the whitespace set stripped by `str.strip()`:
space, tab, newline, carriage return, vertical tab, form feed. -/
def isPyWs (c : Char) : Bool :=
  c.toNat == 32 || c.toNat == 9 || c.toNat == 10 ||
  c.toNat == 13 || c.toNat == 11 || c.toNat == 12

/-- Python `str.strip()` with no arguments (whitespace from both ends). -/
def pyStrip (s : Str) : Str :=
  ((s.dropWhile isPyWs).reverse.dropWhile isPyWs).reverse

/-- Python `str.lower()` (ASCII case mapping; identity on CJK). -/
def lowerStr (s : Str) : Str := s.map Char.toLower

/-- Python `" ".join(words)`. -/
def joinSpace : List Str → Str
  | [] => []
  | [w] => w
  | w :: ws => w ++ ' ' :: joinSpace ws

/-- Helper for Python `str.split()` (no separator): accumulate the current
run of non-whitespace characters (in reverse) and emit it at each
whitespace boundary. -/
def splitWsAux (cur : Str) : Str → List Str
  | [] => if cur.isEmpty then [] else [cur.reverse]
  | c :: cs =>
    if isPyWs c then
      if cur.isEmpty then splitWsAux [] cs else cur.reverse :: splitWsAux [] cs
    else splitWsAux (c :: cur) cs

/-- Python `str.split()` with no arguments: whitespace-separated tokens,
empty tokens discarded. -/
def splitWs (s : Str) : List Str := splitWsAux [] s

/-- Python's substring operator `needle in hay` on strings:
true when `needle` occurs contiguously in `hay`. -/
def isSubstr (needle : Str) : Str → Bool
  | [] => needle.isEmpty
  | c :: cs => needle.isPrefixOf (c :: cs) || isSubstr needle cs

/-- Association-list lookup, modelling Python `d.get(k)` /
`k in d and d[k]`. -/
def lookupMeta (md : Metadata) (k : Str) : Option Str :=
  (md.find? (fun kv => kv.1 == k)).map (·.2)

/-- Association-list update, modelling Python `d[k] = v` (dicts keep the
position of an existing key and append new keys). -/
def setMeta (md : Metadata) (k v : Str) : Metadata :=
  if (md.find? (fun kv => kv.1 == k)).isSome then
    md.map (fun kv => if kv.1 == k then (kv.1, v) else kv)
  else md ++ [(k, v)]

/-- Duplicate removal keeping the first occurrence, as Python
`dict.fromkeys` and first-seen set iteration do. -/
def dedupFirstAux {α : Type} [BEq α] (seen : List α) : List α → List α
  | [] => []
  | x :: xs =>
    if seen.contains x then dedupFirstAux seen xs
    else x :: dedupFirstAux (x :: seen) xs

/-- Duplicate removal keeping the first occurrence. -/
def dedupFirst {α : Type} [BEq α] (l : List α) : List α := dedupFirstAux [] l

/-! ## Search Engine (src/rag/core/search.py) -/

namespace SearchEngine

/-- The raw parallel-array bundle returned by the store for one query:
the code always reads slot `[0]` of the batch-shaped ChromaDB answer, so we
model that single slot directly (`documents[0]`, `metadatas[0]`,
`distances[0]`, `ids[0]`). A metadata entry may be `None`. -/
structure RawBundle where
  documents : List Str
  metadatas : List (Option Metadata)
  distances : List ℚ
  ids : List Str
deriving DecidableEq, Repr

/-- One formatted search result record:
`{"text", "score", "metadata", "id", "rank"}`. -/
structure SearchRecord where
  text : Str
  score : ℚ
  metadata : Metadata
  id : Str
  rank : Nat
deriving DecidableEq, Repr

/-- The `for i, (doc, metadata, distance, doc_id) in enumerate(zip(...))`
loop of `SearchEngine.format_results`: `score = max(0.0, 1.0 - distance)`,
`metadata or {}`, `rank = i + 1`. -/
def formatRecords : List Str → List (Option Metadata) → List ℚ → List Str →
    Nat → List SearchRecord
  | doc :: docs, m :: ms, d :: ds, i :: ids, k =>
    { text := doc, score := max 0 (1 - d), metadata := m.getD [],
      id := i, rank := k + 1 } :: formatRecords docs ms ds ids (k + 1)
  | _, _, _, _, _ => []

/-- The formatted results dictionary
`{"results", "total_found", "search_type"}`. -/
structure FormattedOut where
  results : List SearchRecord
  total_found : Nat
  search_type : Str
deriving DecidableEq, Repr

/-- `SearchEngine.format_results`: empty first slot yields an explicit
zero-result record, otherwise each raw row is converted with
`score = max(0.0, 1.0 - distance)`. -/
def format_results (r : RawBundle) (searchType : Str) : FormattedOut :=
  if r.documents.isEmpty then
    { results := [], total_found := 0, search_type := searchType }
  else
    let rs := formatRecords r.documents r.metadatas r.distances r.ids 0
    { results := rs, total_found := rs.length, search_type := searchType }

/-- `SearchEngine._extract_keywords`: split the stripped query on
whitespace and keep the tokens of length > 1. -/
def extract_keywords (query : Str) : List Str :=
  (splitWs (pyStrip query)).filter (fun w => 1 < w.length)

/-- `SearchEngine._contains_keywords`: case-insensitive substring test,
OR across the keywords. -/
def contains_keywords (text : Str) (keywords : List Str) : Bool :=
  keywords.any (fun k => isSubstr (lowerStr k) (lowerStr text))

/-- `SearchEngine._calculate_keyword_score`: match ratio over the keyword
list (each list entry counted), `+0.3` bonus when the space-joined keyword
phrase occurs in the lowercased text, clipped with `min(1.0, ...)`. -/
def calculate_keyword_score (text : Str) (keywords : List Str) : ℚ :=
  if keywords.isEmpty then 0
  else
    let textLower := lowerStr text
    let nMatches :=
      (keywords.filter (fun k => isSubstr (lowerStr k) textLower)).length
    let score : ℚ := (nMatches : ℚ) / (keywords.length : ℚ)
    let fullQuery := lowerStr (joinSpace keywords)
    if isSubstr fullQuery textLower then min 1 (score + 3/10) else score

/-- The filtering loop of `SearchEngine._filter_by_keywords`: keep the rows
whose document contains a keyword, replacing the distance by
`1.0 - keyword_score`. -/
def filterRows (keywords : List Str) : List Str → List (Option Metadata) →
    List ℚ → List Str → List Str × List (Option Metadata) × List ℚ × List Str
  | doc :: docs, m :: ms, _d :: ds, i :: ids =>
    let (fd, fm, fdist, fid) := filterRows keywords docs ms ds ids
    if contains_keywords doc keywords then
      (doc :: fd, m :: fm, (1 - calculate_keyword_score doc keywords) :: fdist,
       i :: fid)
    else (fd, fm, fdist, fid)
  | _, _, _, _ => ([], [], [], [])

/-- `SearchEngine._filter_by_keywords`: pass the bundle through unchanged
when the first slot is empty or no keywords were extracted; otherwise keep
only keyword-matching rows with synthetic distances. -/
def filter_by_keywords (r : RawBundle) (query : Str) : RawBundle :=
  if r.documents.isEmpty then r
  else
    let keywords := extract_keywords query
    if keywords.isEmpty then r
    else
      let (fd, fm, fdist, fid) :=
        filterRows keywords r.documents r.metadatas r.distances r.ids
      { documents := fd, metadatas := fm, distances := fdist, ids := fid }

/-- The filter merging shared by the search entry points:
`combined_filters = filters or {}`, then `combined_filters["project_id"] =
project_id` when given, passing `None` when the result is empty. -/
def combineFilters (filters : Option Metadata) (projectId : Option Str) :
    Option Metadata :=
  let combined := filters.getD []
  let combined :=
    match projectId with
    | some p => setMeta combined "project_id".toList p
    | none => combined
  if combined.isEmpty then none else some combined

/-- The full result dictionary of `vector_search`/`keyword_search`
(`format_results` output plus the echoed query). -/
structure SearchOut where
  results : List SearchRecord
  total_found : Nat
  search_type : Str
  query : Str
deriving DecidableEq, Repr

/-- `SearchEngine.vector_search` over a store oracle
`dbSearch query n_results filters` standing for
`DatabaseManager.search` (whose own guards are modelled separately). -/
def vector_search (dbSearch : Str → Nat → Option Metadata → RawBundle)
    (query : Str) (topK : Nat) (projectId : Option Str)
    (filters : Option Metadata) : Except Str SearchOut :=
  if (pyStrip query).isEmpty then .error "Query cannot be empty".toList
  else
    let cf := combineFilters filters projectId
    let raw := dbSearch query topK cf
    let fm := format_results raw "vector".toList
    .ok { results := fm.results, total_found := fm.total_found,
          search_type := fm.search_type, query := query }

/-- `SearchEngine.keyword_search`: request `top_k * 2` raw rows, filter by
keywords, format, then truncate to `top_k` and recompute `total_found`. -/
def keyword_search (dbSearch : Str → Nat → Option Metadata → RawBundle)
    (query : Str) (topK : Nat) (projectId : Option Str)
    (filters : Option Metadata) : Except Str SearchOut :=
  if (pyStrip query).isEmpty then .error "Query cannot be empty".toList
  else
    let cf := combineFilters filters projectId
    let raw := dbSearch query (topK * 2) cf
    let filtered := filter_by_keywords raw query
    let fm := format_results filtered "keyword".toList
    let rs := fm.results.take topK
    .ok { results := rs, total_found := rs.length,
          search_type := fm.search_type, query := query }

/-- `SearchEngine._calculate_hybrid_score`:
`alpha * keyword_score + (1.0 - alpha) * vector_score`. -/
def calculate_hybrid_score (vector_score keyword_score alpha : ℚ) : ℚ :=
  alpha * keyword_score + (1 - alpha) * vector_score

/-- A combined hybrid result: the base record with the hybrid score plus
the two per-side scores. -/
structure HybridRecord where
  text : Str
  score : ℚ
  metadata : Metadata
  id : Str
  rank : Nat
  vector_score : ℚ
  keyword_score : ℚ
deriving DecidableEq, Repr

/-- `{result["id"]: result for result in results}` followed by `.get(i)`:
a later record for the same id overwrites an earlier one, so the lookup
returns the last match. -/
def lookupById (rs : List SearchRecord) (i : Str) : Option SearchRecord :=
  rs.reverse.find? (fun r => r.id == i)

/-- `SearchEngine._combine_search_results`: for each id in the union of
both id sets, missing sides default to score `0.0`, the hybrid score is
`_calculate_hybrid_score`, and the vector-side record is preferred as the
base. (Python iterates the union as a `set`; the per-id records do not
depend on that order, which we fix as first-seen over vector ++ keyword.) -/
def combine_search_results (vrs krs : List SearchRecord) (alpha : ℚ) :
    List HybridRecord :=
  let allIds := dedupFirst (vrs.map (·.id) ++ krs.map (·.id))
  allIds.filterMap (fun i =>
    let vr := lookupById vrs i
    let kr := lookupById krs i
    let vscore := (vr.map (·.score)).getD 0
    let kscore := (kr.map (·.score)).getD 0
    let hybrid := calculate_hybrid_score vscore kscore alpha
    match vr.orElse (fun _ => kr) with
    | some base =>
      some { text := base.text, score := hybrid, metadata := base.metadata,
             id := base.id, rank := base.rank, vector_score := vscore,
             keyword_score := kscore }
    | none => none)

/-- Descending order on hybrid scores, for
`combined_results.sort(key=lambda x: x["score"], reverse=True)`. -/
def hybridGE (a b : HybridRecord) : Prop := b.score ≤ a.score

instance : DecidableRel hybridGE := fun _ _ => inferInstanceAs (Decidable (_ ≤ _))

instance : IsTotal HybridRecord hybridGE := ⟨fun a b => le_total b.score a.score⟩

instance : IsTrans HybridRecord hybridGE :=
  ⟨fun _ _ _ h1 h2 => le_trans h2 h1⟩

/-- The result dictionary of `hybrid_search`. -/
structure HybridOut where
  results : List HybridRecord
  total_found : Nat
  search_type : Str
  query : Str
  alpha : ℚ
deriving DecidableEq, Repr

/-- `SearchEngine.hybrid_search`: run both searches with
`search_k = min(top_k * 2, 10)`, merge, sort descending by hybrid score
(Python `list.sort` is stable, as is `insertionSort`), truncate to
`top_k`. -/
def hybrid_search (dbSearch : Str → Nat → Option Metadata → RawBundle)
    (query : Str) (alpha : ℚ) (topK : Nat) (projectId : Option Str)
    (filters : Option Metadata) : Except Str HybridOut :=
  if (pyStrip query).isEmpty then .error "Query cannot be empty".toList
  else
    let searchK := min (topK * 2) 10
    match vector_search dbSearch query searchK projectId filters,
        keyword_search dbSearch query searchK projectId filters with
    | .ok vr, .ok kr =>
      let combined := combine_search_results vr.results kr.results alpha
      let final := (combined.insertionSort hybridGE).take topK
      .ok { results := final, total_found := final.length,
            search_type := "hybrid".toList, query := query, alpha := alpha }
    | .error e, _ => .error e
    | _, .error e => .error e

end SearchEngine

end Rag

namespace Rag

open SearchEngine

/-! ## Helper lemmas about the Search Engine embedding -/

/-- Every record produced by the formatting loop carries the score
`max 0 (1 - d)` of the distance it was zipped with. -/
theorem formatRecords_score (docs : List Str) :
    ∀ (ms : List (Option Metadata)) (ds : List ℚ) (ids : List Str) (k i : Nat)
      (h : i < (formatRecords docs ms ds ids k).length),
      ∃ hd : i < ds.length,
        ((formatRecords docs ms ds ids k).get ⟨i, h⟩).score
          = max 0 (1 - ds.get ⟨i, hd⟩) := by
  induction docs with
  | nil => intro ms ds ids k i h; simp [formatRecords] at h
  | cons doc docs ih =>
    intro ms ds ids k i h
    match ms, ds, ids with
    | [], _, _ => simp [formatRecords] at h
    | _ :: _, [], _ => simp [formatRecords] at h
    | _ :: _, _ :: _, [] => simp [formatRecords] at h
    | m :: ms, d :: ds, x :: ids =>
      match i with
      | 0 => exact ⟨Nat.succ_pos _, rfl⟩
      | Nat.succ i =>
        have h' : i < (formatRecords docs ms ds ids (k + 1)).length := by
          simpa [formatRecords] using h
        obtain ⟨hd, he⟩ := ih ms ds ids (k + 1) i h'
        exact ⟨Nat.succ_lt_succ hd, he⟩

/-- Membership form of `formatRecords_score`. -/
theorem formatRecords_mem_score {docs : List Str} {ms : List (Option Metadata)}
    {ds : List ℚ} {ids : List Str} {k : Nat} {r : SearchRecord}
    (h : r ∈ formatRecords docs ms ds ids k) :
    ∃ j, ∃ hj : j < ds.length, r.score = max 0 (1 - ds.get ⟨j, hj⟩) := by
  obtain ⟨⟨i, hi⟩, rfl⟩ := List.mem_iff_get.mp h
  obtain ⟨hd, he⟩ := formatRecords_score docs ms ds ids k i hi
  exact ⟨i, hd, he⟩

/-- Every formatted result's score comes from some raw distance via
`max 0 (1 - d)`. -/
theorem format_results_mem_score {r : RawBundle} {st : Str} {rec : SearchRecord}
    (h : rec ∈ (format_results r st).results) :
    ∃ j, ∃ hj : j < r.distances.length,
      rec.score = max 0 (1 - r.distances.get ⟨j, hj⟩) := by
  unfold format_results at h
  split at h
  · simp at h
  · exact formatRecords_mem_score h

/-- Each merged hybrid record's score is `_calculate_hybrid_score` of its
own two side scores. -/
theorem combine_mem_score {vrs krs : List SearchRecord} {alpha : ℚ}
    {r : HybridRecord} (h : r ∈ combine_search_results vrs krs alpha) :
    r.score = calculate_hybrid_score r.vector_score r.keyword_score alpha := by
  unfold combine_search_results at h
  rw [List.mem_filterMap] at h
  obtain ⟨i, _, hf⟩ := h
  dsimp only at hf
  rcases hv : (lookupById vrs i).orElse (fun _ => lookupById krs i) with _ | base
  · rw [hv] at hf; simp at hf
  · rw [hv] at hf
    cases hf
    rfl

end Rag

namespace Rag

open SearchEngine

/-- The keyword score as claim C2 words it: "(number of DISTINCT matched
keywords) / (number of keywords)", plus the 0.3 phrase bonus, clipped to 1.
Stated from the claim's wording (not from the source) in order to compare
it with `calculate_keyword_score`, which counts matching keyword-list
entries with multiplicity. -/
def keyword_score_per_claim (text : Str) (keywords : List Str) : ℚ :=
  if keywords.isEmpty then 0
  else
    let textLower := lowerStr text
    let distinct :=
      (dedupFirst (keywords.filter (fun k => isSubstr (lowerStr k) textLower))).length
    let score : ℚ := (distinct : ℚ) / (keywords.length : ℚ)
    if isSubstr (lowerStr (joinSpace keywords)) textLower then
      min 1 (score + 3/10)
    else score

/-- C1: for scores and alpha in [0,1], the hybrid score used when
`hybrid_search` merges the two result lists equals
`alpha * keyword_score + (1 - alpha) * vector_score`; `alpha = 0` gives the
pure vector score, `alpha = 1` the pure keyword score; and
`vector_score=0.8, keyword_score=0.6, alpha=0.3` yields `0.74` within
`1e-3`. -/
theorem C1_hybrid_formula (v k a : ℚ)
    (_hv : 0 ≤ v ∧ v ≤ 1) (_hk : 0 ≤ k ∧ k ≤ 1) (_ha : 0 ≤ a ∧ a ≤ 1) :
    calculate_hybrid_score v k a = a * k + (1 - a) * v
    ∧ calculate_hybrid_score v k 0 = v
    ∧ calculate_hybrid_score v k 1 = k
    ∧ (∀ (vrs krs : List SearchRecord) (r : HybridRecord),
        r ∈ combine_search_results vrs krs a →
          r.score = a * r.keyword_score + (1 - a) * r.vector_score)
    ∧ |calculate_hybrid_score (8/10) (6/10) (3/10) - 74/100| ≤ 1/1000 := by
  refine ⟨rfl, ?_, ?_, ?_, ?_⟩
  · simp [calculate_hybrid_score]
  · simp [calculate_hybrid_score]
  · intro vrs krs r h
    simpa [calculate_hybrid_score] using combine_mem_score h
  · norm_num [calculate_hybrid_score]

/-- Witness for C1 at concrete scores. -/
theorem C1_hybrid_formula_witness :
    calculate_hybrid_score (1/2) (1/4) (1/10)
      = (1/10) * (1/4) + (1 - 1/10) * (1/2) :=
  (C1_hybrid_formula (1/2) (1/4) (1/10) (by norm_num) (by norm_num)
    (by norm_num)).1

/-- Counterexample to C2 as stated: the code counts matching keyword-list
entries with multiplicity, not distinct matched keywords. The query
"ab ab" extracts the duplicate keyword list ["ab", "ab"]; on the text
"xabx" the code scores 2/2 = 1 while the claim's distinct-count formula
scores 1/2. -/
theorem C2_counterexample :
    extract_keywords "ab ab".toList = ["ab".toList, "ab".toList]
    ∧ calculate_keyword_score "xabx".toList ["ab".toList, "ab".toList] = 1
    ∧ keyword_score_per_claim "xabx".toList ["ab".toList, "ab".toList] = 1/2
    ∧ (1 : ℚ) ≠ 1/2 := by
  refine ⟨by decide, ?_, ?_, by norm_num⟩
  · norm_num [calculate_keyword_score, isSubstr, lowerStr, joinSpace,
      List.isPrefixOf]
  · norm_num [keyword_score_per_claim, isSubstr, lowerStr, joinSpace,
      dedupFirst, dedupFirstAux, List.isPrefixOf]

/-- C2 as amended: for every surviving document the keyword score is
(matching keyword-list entries, counted with multiplicity) / (number of
keywords), plus 0.3 when the space-joined phrase occurs in the lowercased
text, clipped with min(1, _); it never exceeds 1; the text containing the
full phrase "認証システム" scores exactly 1 against ["認証", "システム"]
(both keywords match, 2/2 = 1; the bonus would need the spaced phrase),
and a text containing the spaced phrase is clipped to exactly 1. -/
theorem C2_amended_formula (text : Str) (keywords : List Str)
    (h : keywords ≠ []) :
    (isSubstr (lowerStr (joinSpace keywords)) (lowerStr text) = true →
      calculate_keyword_score text keywords
        = min 1 (((keywords.filter
              (fun k => isSubstr (lowerStr k) (lowerStr text))).length : ℚ)
            / (keywords.length : ℚ) + 3/10))
    ∧ (isSubstr (lowerStr (joinSpace keywords)) (lowerStr text) = false →
      calculate_keyword_score text keywords
        = ((keywords.filter
              (fun k => isSubstr (lowerStr k) (lowerStr text))).length : ℚ)
            / (keywords.length : ℚ))
    ∧ calculate_keyword_score text keywords ≤ 1
    ∧ calculate_keyword_score "xx認証システムxx".toList
        ["認証".toList, "システム".toList] = 1
    ∧ calculate_keyword_score "ab cd".toList ["ab".toList, "cd".toList] = 1 := by
  have hne : keywords.isEmpty = false := by
    simpa [List.isEmpty_iff] using h
  have hlen : (0 : ℚ) < (keywords.length : ℚ) := by
    exact_mod_cast List.length_pos.mpr h
  refine ⟨?_, ?_, ?_, ?_, ?_⟩
  · intro hb; simp [calculate_keyword_score, hne, hb]
  · intro hb; simp [calculate_keyword_score, hne, hb]
  · by_cases hb : isSubstr (lowerStr (joinSpace keywords)) (lowerStr text) = true
    · simp only [calculate_keyword_score, hne, Bool.false_eq_true, if_false, hb,
        if_true]
      exact min_le_left _ _
    · have hb' : isSubstr (lowerStr (joinSpace keywords)) (lowerStr text) = false := by
        simpa using hb
      simp only [calculate_keyword_score, hne, Bool.false_eq_true, if_false, hb',
        if_true]
      rw [div_le_one hlen]
      exact_mod_cast List.length_filter_le _ _
  · norm_num [calculate_keyword_score, isSubstr, lowerStr, joinSpace,
      List.isPrefixOf]
  · norm_num [calculate_keyword_score, isSubstr, lowerStr, joinSpace,
      List.isPrefixOf]

/-- Witness for the amended C2 at a concrete input. -/
theorem C2_amended_formula_witness :
    calculate_keyword_score "xabx".toList ["ab".toList] ≤ 1 :=
  (C2_amended_formula "xabx".toList ["ab".toList] (by decide)).2.2.1

/-- C3: every formatted result's reported score is `max 0 (1 - distance)`
of the distance it was formatted from; distance 0.2 gives score 0.8; any
distance ≥ 1 gives exactly 0; scores are never negative. -/
theorem C3_distance_conversion :
    (∀ (r : RawBundle) (st : Str) (i : Nat)
        (h : i < (format_results r st).results.length),
        ∃ hd : i < r.distances.length,
          ((format_results r st).results.get ⟨i, h⟩).score
            = max 0 (1 - r.distances.get ⟨i, hd⟩))
    ∧ (∀ (r : RawBundle) (st : Str) (rec : SearchRecord),
        rec ∈ (format_results r st).results → 0 ≤ rec.score)
    ∧ (format_results
        { documents := ["doc".toList], metadatas := [none],
          distances := [2/10], ids := ["id1".toList] } "vector".toList).results
        = [{ text := "doc".toList, score := 8/10, metadata := [],
             id := "id1".toList, rank := 1 }]
    ∧ (∀ d : ℚ, 1 ≤ d → max 0 (1 - d) = 0)
    ∧ (∀ d : ℚ, 0 ≤ max (0 : ℚ) (1 - d)) := by
  refine ⟨?_, ?_, ?_, ?_, fun d => le_max_left _ _⟩
  · intro r st i h
    by_cases hemp : r.documents.isEmpty
    · exfalso; revert h; simp [format_results, hemp]
    · have hne : r.documents.isEmpty = false := by simpa using hemp
      have hres : (format_results r st).results
          = formatRecords r.documents r.metadatas r.distances r.ids 0 := by
        simp [format_results, hne]
      obtain ⟨hd, he⟩ :=
        formatRecords_score r.documents r.metadatas r.distances r.ids 0 i
          (hres ▸ h)
      refine ⟨hd, ?_⟩
      rw [List.get_of_eq hres ⟨i, h⟩]
      exact he
  · intro r st rec h
    obtain ⟨j, hj, he⟩ := format_results_mem_score h
    rw [he]
    exact le_max_left _ _
  · norm_num [format_results, formatRecords]
  · intro d hd
    have : 1 - d ≤ 0 := by linarith
    exact max_eq_left this

end Rag

namespace Rag

/-! ## Query Preprocessor (src/src/query_preprocessor.py) -/

namespace QueryPreprocessor

/-- One compound-dictionary entry: the optional `tokens` and `synonyms`
fields of the JSON object. -/
structure TermInfo where
  tokens : Option (List Str)
  synonyms : Option (List Str)
deriving DecidableEq, Repr

/-- The loaded compound-term dictionary, in insertion order. -/
abbrev CompoundDict := List (Str × TermInfo)

/-- Python `str.replace(old, new)` for a non-empty `old`: replace every
non-overlapping occurrence left to right. Structural recursion on a fuel
initialised to the string length (each step consumes at least one
character, so the fuel never runs out; the fuel-exhausted branch returns
the remaining input unchanged). -/
def replaceAllFuel (old new : Str) : Nat → Str → Str
  | 0, s => s
  | _ + 1, [] => []
  | fuel + 1, c :: cs =>
    if old.isPrefixOf (c :: cs) then
      new ++ replaceAllFuel old new fuel (List.drop (old.length - 1) cs)
    else c :: replaceAllFuel old new fuel cs

/-- Python `str.replace(old, new)`, including the empty-`old` case
(`"ab".replace("", "X") = "XaXbX"`). -/
def replaceAll (s old new : Str) : Str :=
  if old.isEmpty then new ++ (s.map (fun c => c :: new)).flatten
  else replaceAllFuel old new s.length s

/-- CJK character classes of the word-extraction regex
`[一-鿿぀-ゟ゠-ヿ]`. -/
def isCJKChar (c : Char) : Bool :=
  (0x4e00 ≤ c.toNat && c.toNat ≤ 0x9fff) ||
  (0x3040 ≤ c.toNat && c.toNat ≤ 0x309f) ||
  (0x30a0 ≤ c.toNat && c.toNat ≤ 0x30ff)

/-- The `[a-zA-Z0-9]` class of the word-extraction regex. -/
def isAlnumChar (c : Char) : Bool :=
  ('a' ≤ c && c ≤ 'z') || ('A' ≤ c && c ≤ 'Z') || ('0' ≤ c && c ≤ '9')

/-- The `[a-zA-Z]` class of the mixed-language boundary regexes. -/
def isLatinLetter (c : Char) : Bool :=
  ('a' ≤ c && c ≤ 'z') || ('A' ≤ c && c ≤ 'Z')

/-- Scanner equivalent of
`re.findall(r"[CJK]+|[a-zA-Z0-9]+", text)`: maximal runs of CJK
characters and maximal runs of ASCII alphanumerics, left to right
(the two classes are disjoint, so alternation order does not matter).
`cur` is the current run accumulated in reverse; `kind` is 1 for a CJK
run, 2 for an alphanumeric run. -/
def wordsAux (cur : Str) (kind : Nat) : Str → List Str
  | [] => if cur.isEmpty then [] else [cur.reverse]
  | c :: cs =>
    let k := if isCJKChar c then 1 else if isAlnumChar c then 2 else 0
    if k == 0 then
      if cur.isEmpty then wordsAux [] 0 cs
      else cur.reverse :: wordsAux [] 0 cs
    else if k == kind then wordsAux (c :: cur) kind cs
    else if cur.isEmpty then wordsAux [c] k cs
    else cur.reverse :: wordsAux [c] k cs

/-- `QueryPreprocessor._extract_words`. -/
def extract_words (text : Str) : List Str := wordsAux [] 0 text

/-- One `re.sub` pass inserting a space between every adjacent pair of a
`p`-character followed by a `q`-character (equivalent to
`re.sub(r"(p+)(q+)", r"\1 \2", s)` for disjoint classes `p`, `q`). -/
def subBoundary (p q : Char → Bool) : Str → Str
  | a :: b :: rest =>
    if p a && q b then a :: ' ' :: subBoundary p q (b :: rest)
    else a :: subBoundary p q (b :: rest)
  | s => s

/-- `QueryPreprocessor._handle_mixed_language`: insert spaces at
Latin-letter/CJK boundaries (both directions); return the spaced variant
only when it differs from the query. -/
def handle_mixed_language (query : Str) : List Str :=
  let spaced := subBoundary isCJKChar isLatinLetter
    (subBoundary isLatinLetter isCJKChar query)
  if spaced == query then [] else [spaced]

/-- `QueryPreprocessor._load_expansion_rules`: the fixed built-in
word-expansion table. -/
def expansion_rules : List (Str × List Str) :=
  [("通知".toList, ["notification".toList, "alert".toList, "アラート".toList]),
   ("環境変数".toList, ["environment variable".toList, "env var".toList,
      "環境設定".toList]),
   ("バッチ処理".toList, ["batch processing".toList, "batch".toList,
      "バッチ".toList]),
   ("認証".toList, ["authentication".toList, "auth".toList, "認可".toList,
      "authorization".toList]),
   ("設定".toList, ["configuration".toList, "config".toList, "設定".toList,
      "セットアップ".toList, "setup".toList])]

/-- The `if x not in queries: queries.append(x)` idiom. -/
def addIfNew (qs : List Str) (x : Str) : List Str :=
  if qs.contains x then qs else qs ++ [x]

/-- One iteration of the compound-term loop of `preprocess`: when the term
occurs in the query, add the token-joined replacement (if any and novel)
and one replacement per synonym (if novel). -/
def compoundStep (query : Str) (qs : List Str) (kv : Str × TermInfo) :
    List Str :=
  if isSubstr kv.1 query then
    let qs1 :=
      match kv.2.tokens with
      | some toks => addIfNew qs (replaceAll query kv.1 (joinSpace toks))
      | none => qs
    match kv.2.synonyms with
    | some syns =>
      syns.foldl (fun acc syn => addIfNew acc (replaceAll query kv.1 syn)) qs1
    | none => qs1
  else qs

/-- One iteration of the word-expansion loop of `preprocess`. -/
def expansionStep (query : Str) (qs : List Str) (w : Str) : List Str :=
  match (expansion_rules.find? (fun kv => kv.1 == w)).map (·.2) with
  | some exps =>
    exps.foldl (fun acc e => addIfNew acc (replaceAll query w e)) qs
  | none => qs

/-- `QueryPreprocessor.preprocess`: start from `[query]`; add compound-term
token/synonym replacements, word-level expansions and the mixed-language
spacing variant; deduplicate preserving first-seen order
(`dict.fromkeys`). -/
def preprocess (dict : CompoundDict) (query : Str) : List Str :=
  let queries := [query]
  let queries := dict.foldl (compoundStep query) queries
  let queries := (extract_words query).foldl (expansionStep query) queries
  let queries := queries ++ handle_mixed_language query
  dedupFirst queries

/-- `QueryPreprocessor.split_query`: for every dictionary term found in the
mutating remaining text, append its tokens and delete all occurrences of
the term; word-tokenize the remainder; drop blank parts. -/
def split_query (dict : CompoundDict) (query : Str) : List Str :=
  let pr := dict.foldl
    (fun (pr : List Str × Str) kv =>
      if isSubstr kv.1 pr.2 then
        match kv.2.tokens with
        | some toks => (pr.1 ++ toks, replaceAll pr.2 kv.1 [])
        | none => pr
      else pr)
    ([], query)
  let parts :=
    if (pyStrip pr.2).isEmpty then pr.1 else pr.1 ++ extract_words pr.2
  parts.filter (fun p => !(pyStrip p).isEmpty)

end QueryPreprocessor

end Rag

namespace Rag

open QueryPreprocessor

/-! ## Helper lemmas about dedupFirst and append-only accumulation -/

/-- Membership in the first-seen deduplication: present in the input and
not already seen. -/
theorem mem_dedupFirstAux {α : Type} [BEq α] [LawfulBEq α] {x : α} :
    ∀ (l seen : List α), x ∈ dedupFirstAux seen l ↔ x ∈ l ∧ x ∉ seen := by
  intro l
  induction l with
  | nil => intro seen; simp [dedupFirstAux]
  | cons y ys ih =>
    intro seen
    rcases hy : seen.contains y with _ | _
    · have hy' : y ∉ seen := by simpa using hy
      rw [dedupFirstAux, hy]
      simp only [Bool.false_eq_true, if_false, List.mem_cons, ih]
      constructor
      · rintro (rfl | ⟨h1, h2⟩)
        · exact ⟨Or.inl rfl, hy'⟩
        · exact ⟨Or.inr h1, fun hc => h2 (Or.inr hc)⟩
      · rintro ⟨rfl | h1, h2⟩
        · exact Or.inl rfl
        · by_cases hxy : x = y
          · exact Or.inl hxy
          · exact Or.inr ⟨h1, fun hc => hc.elim hxy h2⟩
    · have hy' : y ∈ seen := List.elem_iff.mp hy
      rw [dedupFirstAux, hy]
      simp only [if_true, ih, List.mem_cons]
      constructor
      · rintro ⟨h1, h2⟩; exact ⟨Or.inr h1, h2⟩
      · rintro ⟨h1 | h1, h2⟩
        · exact absurd (h1 ▸ hy') h2
        · exact ⟨h1, h2⟩

/-- `dedupFirst` preserves membership. -/
theorem mem_dedupFirst {α : Type} [BEq α] [LawfulBEq α] {x : α} {l : List α} :
    x ∈ dedupFirst l ↔ x ∈ l := by
  simp [dedupFirst, mem_dedupFirstAux]

/-- `dedupFirst` output has no duplicates. -/
theorem nodup_dedupFirstAux {α : Type} [BEq α] [LawfulBEq α] :
    ∀ (l seen : List α), (dedupFirstAux seen l).Nodup := by
  intro l
  induction l with
  | nil => intro seen; simp [dedupFirstAux]
  | cons y ys ih =>
    intro seen
    rcases hy : seen.contains y with _ | _
    · rw [dedupFirstAux, hy]
      simp only [Bool.false_eq_true, if_false, List.nodup_cons]
      refine ⟨fun hmem => ?_, ih _⟩
      exact ((mem_dedupFirstAux ys (y :: seen)).mp hmem).2
        (List.mem_cons_self y seen)
    · rw [dedupFirstAux, hy]
      simpa only [if_true] using ih seen

/-- `dedupFirst` output has no duplicates. -/
theorem nodup_dedupFirst {α : Type} [BEq α] [LawfulBEq α] (l : List α) :
    (dedupFirst l).Nodup := nodup_dedupFirstAux l []

/-- A fold whose step only appends produces an extension of its start. -/
theorem foldl_exists_append {α β : Type} (f : List α → β → List α)
    (hf : ∀ acc b, ∃ t, f acc b = acc ++ t) :
    ∀ (l : List β) (acc : List α), ∃ t, l.foldl f acc = acc ++ t := by
  intro l
  induction l with
  | nil => intro acc; exact ⟨[], by simp⟩
  | cons b bs ih =>
    intro acc
    obtain ⟨t1, h1⟩ := hf acc b
    obtain ⟨t2, h2⟩ := ih (acc ++ t1)
    exact ⟨t1 ++ t2, by simp [List.foldl_cons, h1, h2]⟩

/-- `addIfNew` extends its accumulator. -/
theorem addIfNew_append (qs : List Str) (x : Str) :
    ∃ t, addIfNew qs x = qs ++ t := by
  unfold addIfNew
  split
  · exact ⟨[], by simp⟩
  · exact ⟨[x], rfl⟩

/-- The added element is in `addIfNew`'s output. -/
theorem mem_addIfNew (qs : List Str) (x : Str) : x ∈ addIfNew qs x := by
  unfold addIfNew
  split
  · exact List.elem_iff.mp (by assumption)
  · simp

/-- The compound-term step only appends. -/
theorem compoundStep_append (query : Str) (qs : List Str)
    (kv : Str × TermInfo) : ∃ t, compoundStep query qs kv = qs ++ t := by
  unfold compoundStep
  split
  · rcases ht : kv.2.tokens with _ | toks <;>
      rcases hs : kv.2.synonyms with _ | syns <;> simp only [ht, hs]
    · exact ⟨[], by simp⟩
    · exact foldl_exists_append _ (fun acc syn => addIfNew_append acc _) syns qs
    · exact addIfNew_append qs _
    · obtain ⟨t1, h1⟩ := addIfNew_append qs (replaceAll query kv.1 (joinSpace toks))
      obtain ⟨t2, h2⟩ :=
        foldl_exists_append _ (fun acc syn => addIfNew_append acc _) syns
          (addIfNew qs (replaceAll query kv.1 (joinSpace toks)))
      exact ⟨t1 ++ t2, by rw [h2, h1, List.append_assoc]⟩
  · exact ⟨[], by simp⟩

/-- The word-expansion step only appends. -/
theorem expansionStep_append (query : Str) (qs : List Str) (w : Str) :
    ∃ t, expansionStep query qs w = qs ++ t := by
  unfold expansionStep
  split
  · exact foldl_exists_append _ (fun acc e => addIfNew_append acc _) _ qs
  · exact ⟨[], by simp⟩

end Rag

namespace Rag

open QueryPreprocessor

/-- Membership is preserved by a fold whose step only appends. -/
theorem mem_foldl_of_append {α β : Type} (f : List α → β → List α)
    (hf : ∀ acc b, ∃ t, f acc b = acc ++ t) (l : List β) (acc : List α)
    {x : α} (hx : x ∈ acc) : x ∈ l.foldl f acc := by
  obtain ⟨t, ht⟩ := foldl_exists_append f hf l acc
  rw [ht]
  exact List.mem_append_left _ hx

/-- The head element of a first-seen deduplication of a cons. -/
theorem dedupFirst_cons_head {α : Type} [BEq α] [LawfulBEq α] (x : α)
    (l : List α) : (dedupFirst (x :: l)).head? = some x := by
  simp [dedupFirst, dedupFirstAux]

/-- If a dictionary term with tokens occurs in the query, the compound-term
loop puts the token-joined replacement into the accumulator. -/
theorem compound_fold_mem (query : Str) :
    ∀ (dict : CompoundDict) (acc : List Str) (term : Str) (info : TermInfo)
      (toks : List Str), (term, info) ∈ dict → info.tokens = some toks →
      isSubstr term query = true →
      replaceAll query term (joinSpace toks)
        ∈ dict.foldl (compoundStep query) acc := by
  intro dict
  induction dict with
  | nil => intro acc term info toks h; simp at h
  | cons kv rest ih =>
    intro acc term info toks hmem htok hsub
    rw [List.foldl_cons]
    rcases List.mem_cons.mp hmem with rfl | hmem'
    · have h1 : replaceAll query term (joinSpace toks)
          ∈ compoundStep query acc (term, info) := by
        unfold compoundStep
        dsimp only
        simp only [hsub, htok, if_true]
        rcases hs : info.synonyms with _ | syns <;> simp only [hs]
        · exact mem_addIfNew acc _
        · exact mem_foldl_of_append _ (fun a b => addIfNew_append a _) syns _
            (mem_addIfNew acc _)
      exact mem_foldl_of_append _ (fun a b => compoundStep_append query a b)
        rest _ h1
    · exact ih (compoundStep query acc kv) term info toks hmem' htok hsub

/-- C9: `preprocess` always returns a duplicate-free list headed by the
original query (hence non-empty), and contains the token-spaced replacement
of every compound-dictionary term (with a tokens list) occurring in the
query; in particular with the entry `Slack通知 → [Slack, 通知]`, the query
`Slack通知の設定` yields a list headed by the query and containing
`Slack 通知の設定`. -/
theorem C9_preprocess_contract (dict : CompoundDict) (query : Str) :
    (preprocess dict query).head? = some query
    ∧ preprocess dict query ≠ []
    ∧ (preprocess dict query).Nodup
    ∧ (∀ (term : Str) (info : TermInfo) (toks : List Str),
        (term, info) ∈ dict → info.tokens = some toks →
        isSubstr term query = true →
        replaceAll query term (joinSpace toks) ∈ preprocess dict query)
    ∧ "Slack 通知の設定".toList ∈ preprocess
        [("Slack通知".toList, ⟨some ["Slack".toList, "通知".toList], none⟩)]
        "Slack通知の設定".toList
    ∧ (preprocess
        [("Slack通知".toList, ⟨some ["Slack".toList, "通知".toList], none⟩)]
        "Slack通知の設定".toList).head? = some "Slack通知の設定".toList := by
  obtain ⟨t1, h1⟩ :=
    foldl_exists_append _ (compoundStep_append query) dict [query]
  obtain ⟨t2, h2⟩ :=
    foldl_exists_append _ (expansionStep_append query) (extract_words query)
      (dict.foldl (compoundStep query) [query])
  have hhead : (preprocess dict query).head? = some query := by
    unfold preprocess
    dsimp only
    rw [h2, h1]
    simpa [List.append_assoc] using
      dedupFirst_cons_head query (t1 ++ t2 ++ handle_mixed_language query)
  refine ⟨hhead, ?_, ?_, ?_, by decide, by decide⟩
  · intro hnil
    rw [hnil] at hhead
    simp at hhead
  · exact nodup_dedupFirst _
  · intro term info toks hmem htok hsub
    unfold preprocess
    dsimp only
    apply mem_dedupFirst.mpr
    apply List.mem_append_left
    apply mem_foldl_of_append _ (expansionStep_append query)
    exact compound_fold_mem query dict [query] term info toks hmem htok hsub

end Rag

namespace Rag

/-! ## Fallback Search Engine (src/src/fallback_search.py) -/

namespace FallbackSearch

open QueryPreprocessor

/-- The `SearchResult` dataclass:
`document_id, content, score, metadata, search_method`. -/
structure FBResult where
  document_id : Str
  content : Str
  score : ℚ
  metadata : Metadata
  search_method : Str
deriving DecidableEq, Repr

/-- The dictionaries produced by `_execute_search`
(`document_id, content, score, metadata`). -/
structure ExecResult where
  document_id : Str
  content : Str
  score : ℚ
  metadata : Metadata
deriving DecidableEq, Repr

/-- `_create_search_result`: tag an execution result with its search
method. -/
def create_search_result (r : ExecResult) (method : Str) : FBResult :=
  { document_id := r.document_id, content := r.content, score := r.score,
    metadata := r.metadata, search_method := method }

/-- The `method_weights` table of `_rank_and_limit`. -/
def method_weights : List (Str × ℚ) :=
  [("direct".toList, 1), ("preprocessed".toList, 8/10),
   ("fallback".toList, 6/10), ("split".toList, 4/10)]

/-- `method_weights.get(result.search_method, 0.5)`. -/
def methodWeight (m : Str) : ℚ :=
  ((method_weights.find? (fun kv => kv.1 == m)).map (·.2)).getD (1/2)

/-- Descending order on (weighted) scores, for
`results.sort(key=lambda x: x.score, reverse=True)`. -/
def fbGE (a b : FBResult) : Prop := b.score ≤ a.score

instance : DecidableRel fbGE := fun _ _ => inferInstanceAs (Decidable (_ ≤ _))

instance : IsTotal FBResult fbGE := ⟨fun a b => le_total b.score a.score⟩

instance : IsTrans FBResult fbGE := ⟨fun _ _ _ h1 h2 => le_trans h2 h1⟩

/-- `FallbackSearchEngine._rank_and_limit`: multiply each score by the
fixed method weight, sort descending by score (Python's stable sort,
modelled by the stable `insertionSort`), return the first `top_k`. -/
def rank_and_limit (results : List FBResult) (topK : Nat) : List FBResult :=
  let weighted := results.map
    (fun r => { r with score := r.score * methodWeight r.search_method })
  (weighted.insertionSort fbGE).take topK

/-- The accumulation loop shared by every stage of
`search_with_fallback`: append each incoming result not yet seen (by
document id) with the stage's method tag, recording it as seen. -/
def addResults (method : Str) (incoming : List ExecResult)
    (acc : List FBResult) (seen : List Str) : List FBResult × List Str :=
  incoming.foldl
    (fun p r =>
      if p.2.contains r.document_id then p
      else (p.1 ++ [create_search_result r method], p.2 ++ [r.document_id]))
    (acc, seen)

/-- Step 2 of `search_with_fallback`: try the (at most two) preprocessed
queries, skipping ones equal to the original, accumulating and returning
early (`Sum.inl`) as soon as `min_results` is reached. A `none` from the
oracle models an exception from `_execute_search`, which the code catches
and logs, continuing with the next variant. -/
def preprocessedStage (exec : Str → Nat → Option (List ExecResult))
    (query : Str) (topK minResults : Nat) :
    List Str → List FBResult → List Str →
    (List FBResult ⊕ (List FBResult × List Str))
  | [], acc, seen => .inr (acc, seen)
  | pq :: rest, acc, seen =>
    if pq == query then preprocessedStage exec query topK minResults rest acc seen
    else
      let p :=
        match exec pq topK with
        | some rs => addResults "preprocessed".toList rs acc seen
        | none => (acc, seen)
      if minResults ≤ p.1.length then .inl p.1
      else preprocessedStage exec query topK minResults rest p.1 p.2

/-- The per-part loop of step 3 (`"split"` tag). -/
def splitStage (exec : Str → Nat → Option (List ExecResult)) (limit : Nat)
    (parts : List Str) (acc : List FBResult) (seen : List Str) :
    List FBResult × List Str :=
  parts.foldl
    (fun p part =>
      match exec part limit with
      | some rs => addResults "split".toList rs p.1 p.2
      | none => p)
    (acc, seen)

/-- `FallbackSearchEngine.search_with_fallback` over an execution oracle
`exec query limit` standing for `_execute_search` (with the requested
search type and project filter already fixed); `none` models a raised
exception, which each stage catches and skips. Stage 1 requests
`top_k * 2` results and returns early when `min_results` is reached;
stage 2 tries `preprocess(query)[1:3]`; stage 3 splits the query, searches
each part with limit `top_k // len(parts) + 1`, and for exactly two parts
additionally searches their space-joined combination (tag
`"fallback"`); the accumulated results are always ranked and truncated to
`top_k`, even when fewer than `min_results` were found. -/
def search_with_fallback (dict : CompoundDict)
    (exec : Str → Nat → Option (List ExecResult)) (query : Str)
    (topK minResults : Nat) : List FBResult :=
  let p1 :=
    match exec query (topK * 2) with
    | some rs => addResults "direct".toList rs [] []
    | none => ([], [])
  if minResults ≤ p1.1.length then rank_and_limit p1.1 topK
  else
    let pqs := ((preprocess dict query).drop 1).take 2
    match preprocessedStage exec query topK minResults pqs p1.1 p1.2 with
    | .inl early => rank_and_limit early topK
    | .inr p2 =>
      let parts := split_query dict query
      if 1 < parts.length then
        let p3 := splitStage exec (topK / parts.length + 1) parts p2.1 p2.2
        let p4 :=
          match parts with
          | [a, b] =>
            (match exec (a ++ ' ' :: b) topK with
             | some rs => addResults "fallback".toList rs p3.1 p3.2
             | none => p3)
          | _ => p3
        rank_and_limit p4.1 topK
      else rank_and_limit p2.1 topK

end FallbackSearch

end Rag

namespace Rag

open FallbackSearch

/-- C8: the fallback ranking step weights scores by the fixed method
weights (direct 1.0, preprocessed 0.8, fallback 0.6, split 0.4, default
0.5), sorts descending by the weighted score, returns at most `top_k`
results, and `search_with_fallback` always returns such a
ranked-and-truncated version of whatever it accumulated — even when fewer
than `min_results` were found. -/
theorem C8_rank_and_limit_contract :
    (methodWeight "direct".toList = 1
      ∧ methodWeight "preprocessed".toList = 8/10
      ∧ methodWeight "fallback".toList = 6/10
      ∧ methodWeight "split".toList = 4/10)
    ∧ (∀ m : Str, m ≠ "direct".toList → m ≠ "preprocessed".toList →
        m ≠ "fallback".toList → m ≠ "split".toList → methodWeight m = 1/2)
    ∧ (∀ (rs : List FBResult) (k : Nat), (rank_and_limit rs k).length ≤ k)
    ∧ (∀ (rs : List FBResult) (k : Nat),
        (rank_and_limit rs k).Pairwise fbGE)
    ∧ (∀ (rs : List FBResult) (k : Nat) (r : FBResult),
        r ∈ rank_and_limit rs k → ∃ o ∈ rs,
          r = { o with score := o.score * methodWeight o.search_method })
    ∧ (∀ (dict : QueryPreprocessor.CompoundDict)
        (ex : Str → Nat → Option (List ExecResult)) (q : Str)
        (tk mr : Nat), ∃ acc,
          search_with_fallback dict ex q tk mr = rank_and_limit acc tk) := by
  refine ⟨⟨rfl, rfl, rfl, rfl⟩, ?_, ?_, ?_, ?_, ?_⟩
  · intro m h1 h2 h3 h4
    unfold methodWeight
    rw [List.find?_eq_none.mpr]
    · rfl
    · intro x hx
      simp only [method_weights, List.mem_cons, List.not_mem_nil, or_false]
        at hx
      rcases hx with rfl | rfl | rfl | rfl
      · exact fun hbeq => h1 (beq_iff_eq.mp hbeq).symm
      · exact fun hbeq => h2 (beq_iff_eq.mp hbeq).symm
      · exact fun hbeq => h3 (beq_iff_eq.mp hbeq).symm
      · exact fun hbeq => h4 (beq_iff_eq.mp hbeq).symm
  · intro rs k
    simp only [rank_and_limit]
    exact List.length_take_le k _
  · intro rs k
    exact List.Pairwise.sublist (List.take_sublist _ _)
      (List.sorted_insertionSort fbGE _)
  · intro rs k r hr
    unfold rank_and_limit at hr
    have hr' := List.take_subset _ _ hr
    rw [List.mem_insertionSort] at hr'
    obtain ⟨o, ho, rfl⟩ := List.mem_map.mp hr'
    exact ⟨o, ho, rfl⟩
  · intro dict ex q tk mr
    unfold search_with_fallback
    dsimp only
    split
    · exact ⟨_, rfl⟩
    · split
      · exact ⟨_, rfl⟩
      · split
        · exact ⟨_, rfl⟩
        · exact ⟨_, rfl⟩

end Rag

namespace Rag

open SearchEngine

/-- C10: when every whitespace-separated token of a non-blank query has
length ≤ 1, no keywords are extracted, keyword filtering passes the store
bundle through unchanged, and `keyword_search` returns the plain
`1 - distance` formatting of the raw store results truncated to `top_k`. -/
theorem C10_keyword_search_passthrough
    (dbSearch : Str → Nat → Option Metadata → RawBundle) (query : Str)
    (topK : Nat) (projectId : Option Str) (filters : Option Metadata)
    (hq : (pyStrip query).isEmpty = false)
    (hw : ∀ w ∈ splitWs (pyStrip query), w.length ≤ 1) :
    extract_keywords query = []
    ∧ (∀ r : RawBundle, filter_by_keywords r query = r)
    ∧ keyword_search dbSearch query topK projectId filters =
        .ok { results := (format_results
                (dbSearch query (topK * 2) (combineFilters filters projectId))
                "keyword".toList).results.take topK,
              total_found := ((format_results
                (dbSearch query (topK * 2) (combineFilters filters projectId))
                "keyword".toList).results.take topK).length,
              search_type := (format_results
                (dbSearch query (topK * 2) (combineFilters filters projectId))
                "keyword".toList).search_type,
              query := query }
    ∧ (∀ (out : SearchOut),
        keyword_search dbSearch query topK projectId filters = .ok out →
        ∀ rec ∈ out.results, ∃ j, ∃ hj : j <
          (dbSearch query (topK * 2)
            (combineFilters filters projectId)).distances.length,
          rec.score = max 0 (1 - (dbSearch query (topK * 2)
            (combineFilters filters projectId)).distances.get ⟨j, hj⟩)) := by
  have hkw : extract_keywords query = [] := by
    unfold extract_keywords
    rw [List.filter_eq_nil_iff]
    intro w hwmem
    simpa using Nat.not_lt.mpr (hw w hwmem)
  have hpass : ∀ r : RawBundle, filter_by_keywords r query = r := by
    intro r
    unfold filter_by_keywords
    split
    · rfl
    · simp [hkw]
  have hks : keyword_search dbSearch query topK projectId filters =
      .ok { results := (format_results
              (dbSearch query (topK * 2) (combineFilters filters projectId))
              "keyword".toList).results.take topK,
            total_found := ((format_results
              (dbSearch query (topK * 2) (combineFilters filters projectId))
              "keyword".toList).results.take topK).length,
            search_type := (format_results
              (dbSearch query (topK * 2) (combineFilters filters projectId))
              "keyword".toList).search_type,
            query := query } := by
    unfold keyword_search
    rw [hq]
    simp only [Bool.false_eq_true, if_false, hpass]
  refine ⟨hkw, hpass, hks, ?_⟩
  intro out hout rec hrec
  rw [hks] at hout
  cases hout
  exact format_results_mem_score (List.take_subset _ _ hrec)

/-- Witness for C10 at a concrete oracle and query. -/
theorem C10_keyword_search_passthrough_witness :
    SearchEngine.extract_keywords "a b".toList = [] :=
  (C10_keyword_search_passthrough
    (fun _ _ _ => { documents := ["t".toList], metadatas := [none],
                    distances := [1/2], ids := ["i".toList] })
    "a b".toList 5 none none (by decide) (by decide)).1

end Rag

namespace Rag

/-- Helper for Python `str.split(sep)` with a non-empty separator: `acc` is
the current segment in reverse; fuel is initialised to the string length
(each step consumes at least one character). The fuel-exhausted branch
flushes the remaining input (never reached). -/
def splitOnAux (sep : Str) : Nat → Str → Str → List Str
  | 0, acc, s => [acc.reverse ++ s]
  | _ + 1, acc, [] => [acc.reverse]
  | fuel + 1, acc, c :: cs =>
    if sep.isPrefixOf (c :: cs) then
      acc.reverse :: splitOnAux sep fuel [] (List.drop (sep.length - 1) cs)
    else splitOnAux sep fuel (c :: acc) cs

/-- Python `str.split(sep)` for an explicit separator: split at every
non-overlapping occurrence, keeping empty segments. (Python raises on an
empty separator; that case is never used and returns `[s]` here.) -/
def splitOnStr (sep s : Str) : List Str :=
  if sep.isEmpty then [s] else splitOnAux sep s.length [] s

/-! ## Configuration Manager (src/rag/utils/config.py) -/

namespace ConfigManager

/-- A YAML-like configuration value: string, integer, rational, boolean or
string-keyed mapping (association list in insertion order). -/
inductive CVal where
  | s (v : Str)
  | n (v : Int)
  | q (v : ℚ)
  | b (v : Bool)
  | m (entries : List (Str × CVal))

/-- Mapping lookup on configuration entries. -/
def lookupC (l : List (Str × CVal)) (k : Str) : Option CVal :=
  (l.find? (fun kv => kv.1 == k)).map (·.2)

/-- Mapping update on configuration entries (dict semantics: existing keys
keep their position, new keys are appended). -/
def setC (l : List (Str × CVal)) (k : Str) (v : CVal) :
    List (Str × CVal) :=
  if (l.find? (fun kv => kv.1 == k)).isSome then
    l.map (fun kv => if kv.1 == k then (kv.1, v) else kv)
  else l ++ [(k, v)]

/-- The entries of the built-in `default_config` of
`ConfigManager._load_config`. -/
def default_entries : List (Str × CVal) :=
  [("database".toList, .m
      [("type".toList, .s "chromadb".toList),
       ("path".toList, .s "~/.rag/chroma".toList),
       ("collection_name".toList, .s "documents".toList)]),
   ("embedding".toList, .m
      [("model".toList,
          .s "sentence-transformers/multilingual-e5-base".toList),
       ("batch_size".toList, .n 32),
       ("device".toList, .s "cpu".toList)]),
   ("chunking".toList, .m
      [("strategy".toList, .s "fixed".toList),
       ("chunk_size".toList, .n 1000),
       ("chunk_overlap".toList, .n 200),
       ("separator".toList, .s "\n\n".toList)]),
   ("search".toList, .m
      [("default_top_k".toList, .n 5),
       ("hybrid_alpha".toList, .q (5/10))]),
   ("logging".toList, .m
      [("level".toList, .s "INFO".toList),
       ("format".toList,
          .s "%(asctime)s - %(name)s - %(levelname)s - %(message)s".toList)])]

/-- The built-in default configuration. -/
def default_config : CVal := .m default_entries

/-- `ConfigManager._merge_configs` restricted to its only use (both
arguments are mappings): walk the override entries, recursively merging
when both the accumulated value and the override value are mappings,
otherwise replacing wholesale. -/
def mergeEntries (de : List (Str × CVal)) :
    List (Str × CVal) → List (Str × CVal)
  | [] => de
  | (k, v) :: rest =>
    let newVal :=
      match lookupC de k, v with
      | some (.m dm), .m vm => CVal.m (mergeEntries dm vm)
      | _, _ => v
    mergeEntries (setC de k newVal) rest

/-- What the filesystem shows at the resolved configuration path: no file,
or a file whose parse either fails (`yaml.YAMLError`) or produces a value
(`None` for an empty file). -/
inductive FileState where
  | missing
  | present (parsed : Except Str (Option CVal))

/-- `ConfigManager._load_config`: a missing file yields the built-in
defaults with no error; a parse failure propagates; otherwise the parsed
mapping (or `{}` for an empty file) is deep-merged over the defaults.
(A non-mapping parse crashes `override.items()` in Python; it is an error
here.) -/
def load_config_from : FileState → Except Str CVal
  | .missing => .ok default_config
  | .present (.error e) => .error e
  | .present (.ok fc) =>
    match fc.getD (.m []) with
    | .m oe => .ok (.m (mergeEntries default_entries oe))
    | _ => .error "file config is not a mapping".toList

/-- `ConfigManager.__init__` resolves `self.config = self._load_config()`;
the manager state is just the loaded configuration. -/
def init_config (fs : FileState) : Except Str CVal := load_config_from fs

/-- The free function `load_config`: build a fresh manager and return its
configuration. -/
def load_config (fs : FileState) : Except Str CVal := init_config fs

/-- The traversal loop of `ConfigManager.get`: indexing a non-mapping or a
missing key raises `KeyError`/`TypeError`, caught by the caller. -/
def getPath : CVal → List Str → Option CVal
  | v, [] => some v
  | .m entries, k :: rest =>
    match lookupC entries k with
    | some v => getPath v rest
    | none => none
  | _, _ :: _ => none

/-- `ConfigManager.get(key_path, default)`: dotted-path traversal, the
default on any failure. -/
def config_get (cfg : CVal) (keyPath : Str) (dflt : Option CVal) :
    Option CVal :=
  match getPath cfg (splitOnStr ".".toList keyPath) with
  | some v => some v
  | none => dflt

end ConfigManager

end Rag

namespace Rag

open ConfigManager

/-- C6: with no file at the resolved path, constructing the Configuration
Manager and calling the free `load_config` succeed with exactly the
built-in default configuration, whose leaves (via dotted-path `get`) are
the documented default values. -/
theorem C6_missing_config_defaults :
    init_config .missing = .ok default_config
    ∧ load_config .missing = .ok default_config
    ∧ config_get default_config "database.type".toList none
        = some (.s "chromadb".toList)
    ∧ config_get default_config "database.path".toList none
        = some (.s "~/.rag/chroma".toList)
    ∧ config_get default_config "database.collection_name".toList none
        = some (.s "documents".toList)
    ∧ config_get default_config "embedding.model".toList none
        = some (.s "sentence-transformers/multilingual-e5-base".toList)
    ∧ config_get default_config "embedding.batch_size".toList none
        = some (.n 32)
    ∧ config_get default_config "embedding.device".toList none
        = some (.s "cpu".toList)
    ∧ config_get default_config "chunking.strategy".toList none
        = some (.s "fixed".toList)
    ∧ config_get default_config "chunking.chunk_size".toList none
        = some (.n 1000)
    ∧ config_get default_config "chunking.chunk_overlap".toList none
        = some (.n 200)
    ∧ config_get default_config "chunking.separator".toList none
        = some (.s "\n\n".toList)
    ∧ config_get default_config "search.default_top_k".toList none
        = some (.n 5)
    ∧ config_get default_config "search.hybrid_alpha".toList none
        = some (.q (5/10))
    ∧ config_get default_config "logging.level".toList none
        = some (.s "INFO".toList) :=
  ⟨rfl, rfl, rfl, rfl, rfl, rfl, rfl, rfl, rfl, rfl, rfl, rfl, rfl, rfl,
   rfl⟩

end Rag

namespace Rag

/-! ## Document Loader chunker (src/rag/utils/document_loader.py) -/

namespace DocumentLoader

/-- The metadata attached to one emitted chunk. `start_char` is the
approximate offset the source computes (an `int` that is clamped with
`max(0, ...)`). -/
structure ChunkMeta where
  chunk_index : Nat
  chunk_size : Nat
  start_char : Int
  end_char : Nat
deriving DecidableEq, Repr

/-- One emitted chunk: `{"text", "metadata"}`. -/
structure Chunk where
  text : Str
  metadata : ChunkMeta
deriving DecidableEq, Repr

/-- The section-accumulation loop of `DocumentLoader.chunk_document`.
State: emitted `chunks`, the running buffer `current`, and `chunk_index`.
When a chunk is finalized inside the loop, its `start_char` is
`max(0, len("".join(chunks)) * chunk_size - chunk_overlap * chunk_index)`;
`"".join(chunks)` is applied to the list of chunk DICTIONARIES, which in
Python raises `TypeError` whenever `chunks` is non-empty — modelled as
`none`. With `chunks` empty the joined length is 0. -/
def chunkLoop (chunkSize chunkOverlap : Nat) (separator : Str) :
    List Str → List Chunk → Str → Nat → Option (List Chunk × Str × Nat)
  | [], chunks, current, idx => some (chunks, current, idx)
  | sec :: rest, chunks, current, idx =>
    if current.isEmpty = false ∧ chunkSize < current.length + sec.length then
      if (pyStrip current).isEmpty then
        let current' :=
          if 0 < chunkOverlap ∧ current.isEmpty = false then
            List.drop (current.length - chunkOverlap) current ++ sec
          else sec
        chunkLoop chunkSize chunkOverlap separator rest chunks current' idx
      else
        if chunks.isEmpty then
          let chunk : Chunk :=
            { text := pyStrip current,
              metadata :=
                { chunk_index := idx, chunk_size := current.length,
                  start_char :=
                    max 0 ((0 : Int) * (chunkSize : Int)
                      - (chunkOverlap : Int) * (idx : Int)),
                  end_char := current.length } }
          let current' :=
            if 0 < chunkOverlap ∧ current.isEmpty = false then
              List.drop (current.length - chunkOverlap) current ++ sec
            else sec
          chunkLoop chunkSize chunkOverlap separator rest
            (chunks ++ [chunk]) current' (idx + 1)
        else none
    else
      chunkLoop chunkSize chunkOverlap separator rest chunks
        (if current.isEmpty then sec else current ++ separator ++ sec) idx

/-- `DocumentLoader.chunk_document`: blank content yields `[]`; otherwise
split on the separator, accumulate sections greedily, and emit any final
non-blank buffer with
`start_char = max(0, len(joined emitted texts) - chunk_overlap * index)`.
`none` models the `TypeError` raised when a second chunk is finalized
inside the loop (see `chunkLoop`). -/
def chunk_document (content : Str) (chunkSize chunkOverlap : Nat)
    (separator : Str) : Option (List Chunk) :=
  if (pyStrip content).isEmpty then some []
  else
    let sections := splitOnStr separator content
    match chunkLoop chunkSize chunkOverlap separator sections [] [] 0 with
    | none => none
    | some (chunks, current, idx) =>
      if (pyStrip current).isEmpty then some chunks
      else
        let joined := (chunks.map (·.text)).flatten
        some (chunks ++
          [{ text := pyStrip current,
             metadata :=
               { chunk_index := idx, chunk_size := current.length,
                 start_char :=
                   max 0 ((joined.length : Int)
                     - (chunkOverlap : Int) * (idx : Int)),
                 end_char := current.length } }])

end DocumentLoader

end Rag

namespace Rag

open DocumentLoader

/-- `dropWhile` is the identity when no element satisfies the predicate. -/
theorem dropWhile_eq_self_of_all {p : Char → Bool} :
    ∀ l : Str, (∀ c ∈ l, p c = false) → l.dropWhile p = l := by
  intro l h
  cases l with
  | nil => rfl
  | cons c cs =>
    rw [List.dropWhile_cons, h c (List.mem_cons_self c cs)]
    simp

/-- `pyStrip` is the identity on strings with no whitespace characters. -/
theorem pyStrip_eq_self_of_all (l : Str) (h : ∀ c ∈ l, isPyWs c = false) :
    pyStrip l = l := by
  unfold pyStrip
  rw [dropWhile_eq_self_of_all l h,
    dropWhile_eq_self_of_all l.reverse (fun c hc => h c (List.mem_reverse.mp hc)),
    List.reverse_reverse]

/-- Splitting on `"\n\n"` is trivial on strings containing no newline. -/
theorem splitOnAux_no_newline :
    ∀ (fuel : Nat) (acc l : Str), (∀ c ∈ l, c ≠ '\n') →
      splitOnAux "\n\n".toList fuel acc l = [acc.reverse ++ l] := by
  intro fuel
  induction fuel with
  | zero => intro acc l _; rfl
  | succ f ih =>
    intro acc l h
    cases l with
    | nil => simp [splitOnAux]
    | cons c cs =>
      have hc : ('\n' == c) = false :=
        beq_eq_false_iff_ne.mpr fun he => h c (List.mem_cons_self c cs) he.symm
      have hpre : List.isPrefixOf "\n\n".toList (c :: cs) = false := by
        show List.isPrefixOf ['\n', '\n'] (c :: cs) = false
        simp [List.isPrefixOf, hc]
      rw [splitOnAux, hpre]
      simp only [Bool.false_eq_true, if_false]
      rw [ih (c :: acc) cs (fun x hx => h x (List.mem_cons_of_mem c hx))]
      simp

/-- The loop on a single section starting from an empty buffer just loads
the section into the buffer. -/
theorem chunkLoop_single (cs co : Nat) (sep l : Str) :
    chunkLoop cs co sep [l] [] [] 0 = some ([], l, 0) := by
  simp [chunkLoop]

set_option maxRecDepth 40000 in
/-- C7: on 2,500 copies of any non-whitespace character (no separator
occurrence), `chunk_document` with `chunk_size=1000, overlap=200` yields at
least one non-empty chunk, and the concatenation of the emitted chunk
texts is exactly the original content. -/
theorem C7_chunk_coverage (c : Char) (h : isPyWs c = false) :
    ∃ cs, chunk_document (List.replicate 2500 c) 1000 200 "\n\n".toList
        = some cs
      ∧ cs ≠ []
      ∧ (∀ ch ∈ cs, ch.text ≠ [])
      ∧ (cs.map (·.text)).flatten = List.replicate 2500 c := by
  have hmem : ∀ x ∈ List.replicate 2500 c, isPyWs x = false := by
    intro x hx
    rw [(List.eq_of_mem_replicate hx)]
    exact h
  have hnl : ∀ x ∈ List.replicate 2500 c, x ≠ '\n' := by
    intro x hx he
    rw [he] at hx
    have := hmem '\n' hx
    simp [isPyWs] at this
  have hne : List.replicate 2500 c ≠ [] :=
    List.length_pos.mp (by rw [List.length_replicate]; norm_num)
  have hstrip : pyStrip (List.replicate 2500 c) = List.replicate 2500 c :=
    pyStrip_eq_self_of_all _ hmem
  have hempty : (List.replicate 2500 c).isEmpty = false := by
    simp [List.isEmpty_iff, hne]
  have hsplit : splitOnStr "\n\n".toList (List.replicate 2500 c)
      = [List.replicate 2500 c] := by
    unfold splitOnStr
    rw [if_neg (by simp)]
    rw [splitOnAux_no_newline _ [] _ hnl, List.reverse_nil, List.nil_append]
  refine ⟨[⟨List.replicate 2500 c, ⟨0, 2500, 0, 2500⟩⟩], ?_, by simp, ?_,
    by simp⟩
  · unfold chunk_document
    rw [hstrip, hempty]
    simp only [Bool.false_eq_true, if_false]
    rw [hsplit, chunkLoop_single]
    dsimp only
    rw [hstrip, hempty]
    simp only [Bool.false_eq_true, if_false]
    simp [List.length_replicate]
  · intro ch hch
    simp only [List.mem_singleton] at hch
    rw [hch]
    simp only []
    exact hne

/-- Witness for C7 at the concrete character `x`. -/
theorem C7_chunk_coverage_witness :
    isPyWs 'x' = false
    ∧ ∃ cs, chunk_document (List.replicate 2500 'x') 1000 200 "\n\n".toList
          = some cs
        ∧ cs ≠ []
        ∧ (∀ ch ∈ cs, ch.text ≠ [])
        ∧ (cs.map (·.text)).flatten = List.replicate 2500 'x' :=
  ⟨by decide, C7_chunk_coverage 'x' (by decide)⟩

end Rag

namespace Rag

/-! ## MD5 (the `hashlib.md5` primitive used by `DatabaseManager`)

The document store derives auto-generated ids from
`hashlib.md5(text.encode()).hexdigest()[:16]`. `hashlib` is the Python
standard library's implementation of RFC 1321; it is embedded here
faithfully (32-bit words as `Nat` reduced mod `2^32`, UTF-8 input bytes)
so that the id computation is a concrete function of the document text. -/

namespace MD5

/-- UTF-8 encoding of one code point (Python `str.encode()`). -/
def utf8Char (c : Char) : List Nat :=
  let n := c.toNat
  if n < 0x80 then [n]
  else if n < 0x800 then [0xc0 + n / 64, 0x80 + n % 64]
  else if n < 0x10000 then
    [0xe0 + n / 4096, 0x80 + n / 64 % 64, 0x80 + n % 64]
  else
    [0xf0 + n / 262144, 0x80 + n / 4096 % 64, 0x80 + n / 64 % 64,
     0x80 + n % 64]

/-- UTF-8 encoding of a string. -/
def utf8Bytes (s : Str) : List Nat := (s.map utf8Char).flatten

/-- The per-round sine-derived constants of RFC 1321. -/
def kTable : List Nat :=
  [0xd76aa478, 0xe8c7b756, 0x242070db, 0xc1bdceee,
   0xf57c0faf, 0x4787c62a, 0xa8304613, 0xfd469501,
   0x698098d8, 0x8b44f7af, 0xffff5bb1, 0x895cd7be,
   0x6b901122, 0xfd987193, 0xa679438e, 0x49b40821,
   0xf61e2562, 0xc040b340, 0x265e5a51, 0xe9b6c7aa,
   0xd62f105d, 0x02441453, 0xd8a1e681, 0xe7d3fbc8,
   0x21e1cde6, 0xc33707d6, 0xf4d50d87, 0x455a14ed,
   0xa9e3e905, 0xfcefa3f8, 0x676f02d9, 0x8d2a4c8a,
   0xfffa3942, 0x8771f681, 0x6d9d6122, 0xfde5380c,
   0xa4beea44, 0x4bdecfa9, 0xf6bb4b60, 0xbebfbc70,
   0x289b7ec6, 0xeaa127fa, 0xd4ef3085, 0x04881d05,
   0xd9d4d039, 0xe6db99e5, 0x1fa27cf8, 0xc4ac5665,
   0xf4292244, 0x432aff97, 0xab9423a7, 0xfc93a039,
   0x655b59c3, 0x8f0ccc92, 0xffeff47d, 0x85845dd1,
   0x6fa87e4f, 0xfe2ce6e0, 0xa3014314, 0x4e0811a1,
   0xf7537e82, 0xbd3af235, 0x2ad7d2bb, 0xeb86d391]

/-- The per-round left-rotation amounts of RFC 1321. -/
def sTable : List Nat :=
  [7, 12, 17, 22, 7, 12, 17, 22, 7, 12, 17, 22, 7, 12, 17, 22,
   5, 9, 14, 20, 5, 9, 14, 20, 5, 9, 14, 20, 5, 9, 14, 20,
   4, 11, 16, 23, 4, 11, 16, 23, 4, 11, 16, 23, 4, 11, 16, 23,
   6, 10, 15, 21, 6, 10, 15, 21, 6, 10, 15, 21, 6, 10, 15, 21]

/-- 32-bit left rotation on `Nat` words. -/
def rotl32 (x c : Nat) : Nat :=
  (x <<< c) % 2 ^ 32 ||| x >>> (32 - c)

/-- Little-endian bytes of a number, fixed width. -/
def leBytes : Nat → Nat → List Nat
  | _, 0 => []
  | n, w + 1 => n % 256 :: leBytes (n / 256) w

/-- RFC 1321 padding: a 0x80 byte, zeros to 56 mod 64, then the 64-bit
little-endian bit length. -/
def md5Pad (msg : List Nat) : List Nat :=
  let zeros := (56 + 64 - (msg.length + 1) % 64) % 64
  msg ++ 0x80 :: List.replicate zeros 0 ++ leBytes (msg.length * 8 % 2 ^ 64) 8

/-- The 32-bit little-endian word at index `j` of a 64-byte block. -/
def wordAt (block : List Nat) (j : Nat) : Nat :=
  (block.getD (4 * j) 0) + (block.getD (4 * j + 1) 0) * 256 +
    (block.getD (4 * j + 2) 0) * 65536 + (block.getD (4 * j + 3) 0) * 16777216

/-- One of the 64 rounds of the MD5 compression function. -/
def md5Round (block : List Nat) (st : Nat × Nat × Nat × Nat) (i : Nat) :
    Nat × Nat × Nat × Nat :=
  let (a, b, c, d) := st
  let mask := 0xffffffff
  let fg : Nat × Nat :=
    if i < 16 then ((b &&& c) ||| ((mask ^^^ b) &&& d), i)
    else if i < 32 then ((d &&& b) ||| ((mask ^^^ d) &&& c), (5 * i + 1) % 16)
    else if i < 48 then (b ^^^ c ^^^ d, (3 * i + 5) % 16)
    else (c ^^^ (b ||| (mask ^^^ d)), 7 * i % 16)
  let f := (fg.1 + a + kTable.getD i 0 + wordAt block fg.2) % 2 ^ 32
  (d, (b + rotl32 f (sTable.getD i 0)) % 2 ^ 32, b, c)

/-- The MD5 compression function on one 64-byte block. -/
def md5Block (st : Nat × Nat × Nat × Nat) (block : List Nat) :
    Nat × Nat × Nat × Nat :=
  let (a0, b0, c0, d0) := st
  let (a, b, c, d) := (List.range 64).foldl (md5Round block) st
  ((a0 + a) % 2 ^ 32, (b0 + b) % 2 ^ 32, (c0 + c) % 2 ^ 32, (d0 + d) % 2 ^ 32)

/-- Split the padded message into 64-byte blocks (fuel-driven; the fuel is
the message length, which bounds the number of blocks). -/
def toBlocks : Nat → List Nat → List (List Nat)
  | _, [] => []
  | 0, l => [l]
  | fuel + 1, l => l.take 64 :: toBlocks fuel (l.drop 64)

/-- The lowercase hex digit for a nibble. -/
def hexDigit (n : Nat) : Char :=
  if n < 10 then Char.ofNat (48 + n) else Char.ofNat (87 + n)

/-- Two lowercase hex digits of one byte. -/
def byteHex (b : Nat) : Str := [hexDigit (b / 16), hexDigit (b % 16)]

/-- `hashlib.md5(msg).hexdigest()`: the 32-character lowercase hex digest
of a byte string. -/
def md5Hex (msg : List Nat) : Str :=
  let blocks := toBlocks (md5Pad msg).length (md5Pad msg)
  let (a, b, c, d) :=
    blocks.foldl md5Block (0x67452301, 0xefcdab89, 0x98badcfe, 0x10325476)
  ((leBytes a 4 ++ leBytes b 4 ++ leBytes c 4 ++ leBytes d 4).map byteHex).flatten

end MD5

end Rag

namespace Rag

/-! ## Document Store (src/rag/core/database.py) -/

namespace DatabaseManager

/-- One stored document of the wrapped ChromaDB collection. -/
structure StoredDoc where
  id : Str
  text : Str
  metadata : Metadata
deriving DecidableEq, Repr

/-- The selected collection: name, `{"hnsw:space": "cosine"}` metadata,
and its documents (an in-memory model of the ChromaDB collection). -/
structure Collection where
  name : Str
  metadata : Metadata
  docs : List StoredDoc
deriving DecidableEq, Repr

/-- The manager state: `self.collection` is `None` until
`create_collection` has been called. -/
structure DBState where
  collection : Option Collection
deriving DecidableEq, Repr

/-- The errors the store operations raise: the spec's InvalidState for
"No collection available. Call create_collection() first." and
InvalidInput for the argument `ValueError`s. -/
inductive DBError where
  | invalidState (msg : Str)
  | invalidInput (msg : Str)
deriving DecidableEq, Repr

/-- The shared no-collection message. -/
def noCollectionMsg : Str :=
  "No collection available. Call create_collection() first.".toList

/-- `DatabaseManager.create_collection` (get-or-create is a third-party
call; the fresh-collection branch with the fixed cosine setting is
modelled). -/
def create_collection (_st : DBState) (name : Str) : DBState :=
  ⟨some ⟨name, [("hnsw:space".toList, "cosine".toList)], []⟩⟩

/-- `DatabaseManager.add_document`: requires a collection and non-blank
text; auto-generates `"doc_" + md5(text.encode()).hexdigest()[:16]` when
`doc_id` is absent or empty; stamps `metadata["created_at"]` with the
current time (`now`, an oracle) and appends to the collection. -/
def add_document (now : Str) (st : DBState) (text : Str)
    (metadata : Option Metadata) (docId : Option Str) :
    Except DBError (Str × DBState) :=
  match st.collection with
  | none => .error (.invalidState noCollectionMsg)
  | some col =>
    if (pyStrip text).isEmpty then
      .error (.invalidInput "Document text cannot be empty".toList)
    else
      let id :=
        match docId with
        | some d =>
          if d.isEmpty then
            "doc_".toList ++ (MD5.md5Hex (MD5.utf8Bytes text)).take 16
          else d
        | none => "doc_".toList ++ (MD5.md5Hex (MD5.utf8Bytes text)).take 16
      let md := setMeta (metadata.getD []) "created_at".toList now
      let newDoc : StoredDoc := ⟨id, text, md⟩
      .ok (id, ⟨some { col with docs := col.docs ++ [newDoc] }⟩)

/-- `DatabaseManager.search`: requires a collection and a non-blank query;
the nearest-neighbour query itself is the third-party boundary, modelled
by the `queryOracle`. -/
def search (queryOracle : Collection → Str → Nat → Option Metadata →
      SearchEngine.RawBundle) (st : DBState) (query : Str) (nResults : Nat)
    (filters : Option Metadata) : Except DBError SearchEngine.RawBundle :=
  match st.collection with
  | none => .error (.invalidState noCollectionMsg)
  | some col =>
    if (pyStrip query).isEmpty then
      .error (.invalidInput "Query cannot be empty".toList)
    else .ok (queryOracle col query nResults filters)

/-- `DatabaseManager.delete_document`: existence-check first, `False` for a
missing id, else delete and return `True`. -/
def delete_document (st : DBState) (docId : Str) :
    Except DBError (Bool × DBState) :=
  match st.collection with
  | none => .error (.invalidState noCollectionMsg)
  | some col =>
    if col.docs.any (fun d => d.id == docId) then
      .ok (true,
        ⟨some { col with docs := col.docs.filter (fun d => !(d.id == docId)) }⟩)
    else .ok (false, st)

/-- `DatabaseManager.update_document`: requires a collection and at least
one of `text`/`metadata`; `False` for a missing id; a metadata update
stamps `updated_at` (`now` oracle) and replaces the stored metadata. -/
def update_document (now : Str) (st : DBState) (docId : Str)
    (text : Option Str) (metadata : Option Metadata) :
    Except DBError (Bool × DBState) :=
  match st.collection with
  | none => .error (.invalidState noCollectionMsg)
  | some col =>
    if text.isNone ∧ metadata.isNone then
      .error (.invalidInput
        "At least one of text or metadata must be provided".toList)
    else if col.docs.any (fun d => d.id == docId) then
      let upd := fun (d : StoredDoc) =>
        if d.id == docId then
          { d with
            text := text.getD d.text,
            metadata :=
              match metadata with
              | some md => setMeta md "updated_at".toList now
              | none => d.metadata }
        else d
      .ok (true, ⟨some { col with docs := col.docs.map upd }⟩)
    else .ok (false, st)

/-- A listed document: `{"id", "text", "metadata"}`. -/
structure DocListing where
  id : Str
  text : Str
  metadata : Metadata
deriving DecidableEq, Repr

/-- `DatabaseManager.list_documents`. -/
def list_documents (st : DBState) (limit : Option Nat) :
    Except DBError (List DocListing) :=
  match st.collection with
  | none => .error (.invalidState noCollectionMsg)
  | some col =>
    let docs := match limit with
      | some n => col.docs.take n
      | none => col.docs
    .ok (docs.map (fun d => (⟨d.id, d.text, d.metadata⟩ : DocListing)))

/-- `DatabaseManager.get_collection_info`: `{name, count, metadata}`. -/
def get_collection_info (st : DBState) :
    Except DBError (Str × Nat × Metadata) :=
  match st.collection with
  | none => .error (.invalidState noCollectionMsg)
  | some col => .ok (col.name, col.docs.length, col.metadata)

/-- The equality-only metadata filter of `collection.get(where=...)`. -/
def matchesWhere (md : Metadata) (filters : Metadata) : Bool :=
  filters.all (fun kv => lookupMeta md kv.1 == some kv.2)

/-- `DatabaseManager.delete_by_metadata`: bulk delete of every document
matching the equality filter map; returns the deleted ids. -/
def delete_by_metadata (st : DBState) (filters : Metadata) :
    Except DBError (List Str × DBState) :=
  match st.collection with
  | none => .error (.invalidState noCollectionMsg)
  | some col =>
    let hit := fun (d : StoredDoc) => matchesWhere d.metadata filters
    let ids := (col.docs.filter hit).map (·.id)
    .ok (ids, ⟨some { col with docs := col.docs.filter (fun d => !hit d) }⟩)

/-- One `{id, name, document_count}` of `list_projects`. -/
structure ProjectInfo where
  id : Str
  name : Str
  document_count : Nat
deriving DecidableEq, Repr

/-- `DatabaseManager.list_projects`: full scan grouped by the
`project_id` metadata key, in first-seen order (dict insertion order). -/
def list_projects (st : DBState) : Except DBError (List ProjectInfo) :=
  match st.collection with
  | none => .error (.invalidState noCollectionMsg)
  | some col =>
    .ok (col.docs.foldl
      (fun ps d =>
        match lookupMeta d.metadata "project_id".toList with
        | some pid =>
          if ps.any (fun p => p.id == pid) then
            ps.map (fun p =>
              if p.id == pid then
                { p with document_count := p.document_count + 1 }
              else p)
          else ps ++ [{ id := pid, name := pid, document_count := 1 }]
        | none => ps)
      [])

/-- `DatabaseManager.reset_collection`: drop and recreate the same-named
collection, empty, with the same cosine setting. -/
def reset_collection (st : DBState) : Except DBError DBState :=
  match st.collection with
  | none => .error (.invalidState noCollectionMsg)
  | some col =>
    .ok ⟨some ⟨col.name, [("hnsw:space".toList, "cosine".toList)], []⟩⟩

end DatabaseManager

end Rag

namespace Rag

open DatabaseManager

/-- With a collection selected and non-blank text, `add_document` without
an explicit id succeeds and returns the content-derived id. -/
theorem add_document_ok (now : Str) (st : DBState) (text : Str)
    (md : Option Metadata) (col : Collection)
    (hc : st.collection = some col)
    (ht : (pyStrip text).isEmpty = false) :
    add_document now st text md none
      = .ok ("doc_".toList ++ (MD5.md5Hex (MD5.utf8Bytes text)).take 16,
          ⟨some { col with docs := col.docs ++
            [⟨"doc_".toList ++ (MD5.md5Hex (MD5.utf8Bytes text)).take 16,
              text, setMeta (md.getD []) "created_at".toList now⟩] }⟩) := by
  unfold add_document
  rw [hc]
  dsimp only
  rw [ht]
  simp only [Bool.false_eq_true, if_false]

/-- C4: for every non-blank text, `add_document` with no explicit id
returns `"doc_" + md5(text)[:16]` — on any two separate invocations (any
manager states, metadata, timestamps) the returned ids are identical:
deterministic on content. -/
theorem C4_deterministic_id (now₁ now₂ : Str) (st₁ st₂ : DBState)
    (md₁ md₂ : Option Metadata) (text : Str) (col₁ col₂ : Collection)
    (h₁ : st₁.collection = some col₁) (h₂ : st₂.collection = some col₂)
    (ht : (pyStrip text).isEmpty = false) :
    (∃ st', add_document now₁ st₁ text md₁ none
        = .ok ("doc_".toList ++ (MD5.md5Hex (MD5.utf8Bytes text)).take 16,
            st'))
    ∧ (∃ st', add_document now₂ st₂ text md₂ none
        = .ok ("doc_".toList ++ (MD5.md5Hex (MD5.utf8Bytes text)).take 16,
            st'))
    ∧ (∀ id₁ st₁' id₂ st₂',
        add_document now₁ st₁ text md₁ none = .ok (id₁, st₁') →
        add_document now₂ st₂ text md₂ none = .ok (id₂, st₂') →
        id₁ = id₂) := by
  refine ⟨⟨_, add_document_ok now₁ st₁ text md₁ col₁ h₁ ht⟩,
    ⟨_, add_document_ok now₂ st₂ text md₂ col₂ h₂ ht⟩, ?_⟩
  intro id₁ st₁' id₂ st₂' e₁ e₂
  rw [add_document_ok now₁ st₁ text md₁ col₁ h₁ ht] at e₁
  rw [add_document_ok now₂ st₂ text md₂ col₂ h₂ ht] at e₂
  cases e₁
  cases e₂
  rfl

/-- Witness for C4: the id of `"hello"` is `doc_5d41402abc4b2a76`
(`5d41402abc4b2a76...` being md5 of `"hello"`). -/
theorem C4_deterministic_id_witness :
    ∃ st', add_document "2024-01-01T00:00:00".toList
        ⟨some ⟨"documents".toList, [], []⟩⟩ "hello".toList none none
      = .ok ("doc_5d41402abc4b2a76".toList, st') := by
  obtain ⟨st', h⟩ := (C4_deterministic_id
    "2024-01-01T00:00:00".toList "2024-01-01T00:00:00".toList
    ⟨some ⟨"documents".toList, [], []⟩⟩ ⟨some ⟨"documents".toList, [], []⟩⟩
    none none "hello".toList
    ⟨"documents".toList, [], []⟩ ⟨"documents".toList, [], []⟩
    rfl rfl (by decide)).1
  refine ⟨st', ?_⟩
  rw [h]
  have hid : "doc_".toList
      ++ (MD5.md5Hex (MD5.utf8Bytes "hello".toList)).take 16
      = "doc_5d41402abc4b2a76".toList := by decide
  rw [hid]

/-- C5: on a manager with no collection selected, every document operation
fails with the InvalidState error (`ValueError("No collection available.
Call create_collection() first.")`), whatever its arguments and whatever
the store oracle would answer. -/
theorem C5_no_collection_invalid_state (st : DBState)
    (h : st.collection = none) :
    (∀ now text md docId, add_document now st text md docId
        = .error (.invalidState noCollectionMsg))
    ∧ (∀ queryOracle query n filters, search queryOracle st query n filters
        = .error (.invalidState noCollectionMsg))
    ∧ (∀ docId, delete_document st docId
        = .error (.invalidState noCollectionMsg))
    ∧ (∀ now docId text md, update_document now st docId text md
        = .error (.invalidState noCollectionMsg))
    ∧ (∀ limit, list_documents st limit
        = .error (.invalidState noCollectionMsg))
    ∧ get_collection_info st = .error (.invalidState noCollectionMsg)
    ∧ (∀ filters, delete_by_metadata st filters
        = .error (.invalidState noCollectionMsg))
    ∧ list_projects st = .error (.invalidState noCollectionMsg)
    ∧ reset_collection st = .error (.invalidState noCollectionMsg) := by
  refine ⟨?_, ?_, ?_, ?_, ?_, ?_, ?_, ?_, ?_⟩ <;>
    intros <;>
    simp only [add_document, search, delete_document, update_document,
      list_documents, get_collection_info, delete_by_metadata,
      list_projects, reset_collection, h]

/-- Witness for C5 on the fresh no-collection state. -/
theorem C5_no_collection_invalid_state_witness :
    add_document [] ⟨none⟩ "x".toList none none
        = .error (.invalidState noCollectionMsg)
    ∧ list_projects (⟨none⟩ : DBState)
        = .error (.invalidState noCollectionMsg) :=
  ⟨(C5_no_collection_invalid_state ⟨none⟩ rfl).1 [] "x".toList none none,
   (C5_no_collection_invalid_state ⟨none⟩ rfl).2.2.2.2.2.2.2.1⟩

end Rag
